import Mathlib

/-!
Verification of the go-logz leveled logging library (package `logger`).

The Go source consists of two files: the logger core (levels, options,
construction, formatting, dispatch) and the output-sink combinators
(console, file, writer, split, multiplex, level filter).

Modelling conventions:
* `LogLevel` is the integer-backed Go enum, embedded as `Int`.
* Side effects of sinks are embedded as traces: an `OutputFunc` returns the
  list of `Effect`s it performs instead of performing I/O.
* `time.Now().UTC().Format(time.RFC3339Nano)` is nondeterministic input,
  threaded as an explicit `timestamp : String` parameter.
* The Go `map[string]interface{}` is embedded as an association list
  `Ctx = List (String × JVal)` with `mapInsert` giving the Go map-write
  semantics (overwrite on key collision); `encoding/json.Marshal` of a map
  sorts keys, embedded by `marshalObj` (sort, then serialize each entry).
* The filesystem interaction of `FileOutput` is parametrised by the outcome
  `fsOpen : String → Except String Unit` of the single `os.OpenFile` call,
  and the call itself is recorded as an `Effect.openAppendCreate` trace entry.
-/

namespace GoLogz

/-- Go: `type LogLevel int`. -/
abbrev LogLevel := Int

/-- Go: `Emergency LogLevel = iota` (0). -/
def Emergency : LogLevel := 0
/-- Go: `Alert` (1). -/
def Alert : LogLevel := 1
/-- Go: `Critical` (2). -/
def Critical : LogLevel := 2
/-- Go: `Error` (3). -/
def Error : LogLevel := 3
/-- Go: `Warning` (4). -/
def Warning : LogLevel := 4
/-- Go: `Notice` (5). -/
def Notice : LogLevel := 5
/-- Go: `Info` (6). -/
def Info : LogLevel := 6
/-- Go: `Debug` (7). -/
def Debug : LogLevel := 7

/-- Go: `func (l LogLevel) String() string` — switch over the eight levels
with default `"UNKNOWN"`. -/
def LogLevel.String (l : LogLevel) : String :=
  if l = Emergency then "EMERGENCY"
  else if l = Alert then "ALERT"
  else if l = Critical then "CRITICAL"
  else if l = Error then "ERROR"
  else if l = Warning then "WARNING"
  else if l = Notice then "NOTICE"
  else if l = Info then "INFO"
  else if l = Debug then "DEBUG"
  else "UNKNOWN"

/-- Go: `type LogOutput string`. -/
abbrev LogOutput := String

/-- Go: `StringOutput LogOutput = "string"`. -/
def StringOutput : LogOutput := "string"

/-- Go: `JSONOutput LogOutput = "json"`. -/
def JSONOutput : LogOutput := "json"

/-- JSON values appearing in the `map[string]interface{}` context and in
the marshalled log record. -/
inductive JVal where
  | str : String → JVal
  | num : Int → JVal
  | bool : Bool → JVal
  | null : JVal
  deriving DecidableEq, Repr

/-- A Go `map[string]interface{}`, embedded as an association list. -/
abbrev Ctx := List (String × JVal)

/-- Go map write `m[k] = v`: overwrite the entry for `k` if present,
otherwise add it. -/
def mapInsert (m : Ctx) (k : String) (v : JVal) : Ctx :=
  match m with
  | [] => [(k, v)]
  | p :: rest => if p.1 = k then (k, v) :: rest else p :: mapInsert rest k v

/-- Go map read `m[k]`: the value at the first entry for `k`, if any
(entries produced by `mapInsert` have unique keys). -/
def mapLookup (k : String) : Ctx → Option JVal
  | [] => none
  | p :: rest => if p.1 = k then some p.2 else mapLookup k rest

/-- Lower-case hex digit of `n < 16`, as used in JSON `\uXXXX` escapes. -/
def hexDigit (n : Nat) : Char :=
  if n < 10 then Char.ofNat (48 + n) else Char.ofNat (87 + n)

/-- Per-character JSON string escaping as performed by the Go
`encoding/json.Marshal` (which also HTML-escapes `<`, `>`, `&`). -/
def escChar (c : Char) : String :=
  if c = '"' then "\\\""
  else if c = '\\' then "\\\\"
  else if c = '\n' then "\\n"
  else if c = '\r' then "\\r"
  else if c = '\t' then "\\t"
  else if c = '<' then "\\u003c"
  else if c = '>' then "\\u003e"
  else if c = '&' then "\\u0026"
  else if c.toNat < 32 then
    "\\u00" ++ String.mk [hexDigit (c.toNat / 16), hexDigit (c.toNat % 16)]
  else String.mk [c]

/-- JSON escaping of a whole string. -/
def jsonEscape (s : String) : String :=
  String.join (s.toList.map escChar)

/-- A JSON string literal: escaped and wrapped in double quotes. -/
def jsonQuote (s : String) : String :=
  "\"" ++ jsonEscape s ++ "\""

/-- Serialization of one JSON value. -/
def JVal.serialize : JVal → String
  | .str s => jsonQuote s
  | .num n => toString n
  | .bool true => "true"
  | .bool false => "false"
  | .null => "null"

/-- Insert one entry into a key-sorted association list. -/
def insertByKey (p : String × JVal) : Ctx → Ctx
  | [] => [p]
  | q :: rest => if p.1 ≤ q.1 then p :: q :: rest else q :: insertByKey p rest

/-- Sort an association list by key (the Go `json.Marshal` emits map keys in
sorted order). -/
def sortByKey : Ctx → Ctx
  | [] => []
  | p :: rest => insertByKey p (sortByKey rest)

/-- Go: `json.Marshal` of a `map[string]interface{}`: a single JSON object
with the keys in sorted order. -/
def marshalObj (m : Ctx) : String :=
  "\x7b" ++
    String.intercalate "," ((sortByKey m).map
      (fun p => jsonQuote p.1 ++ ":" ++ JVal.serialize p.2)) ++
  "\x7d"

/-- One observable side effect of a sink call. -/
inductive Effect where
  | stderrWrite : String → Effect
  | stdoutWrite : String → Effect
  | fileAppend : String → String → Effect
  | writerWrite : Nat → String → Effect
  | openAppendCreate : String → Effect
  | call : Nat → LogLevel → String → Effect
  deriving DecidableEq, Repr

/-- Go: `type OutputFunc func(level LogLevel, message string)`, embedded as
a function returning its trace of effects. -/
abbrev OutputFunc := LogLevel → String → List Effect

/-- Go: `type FormatFunc func(level LogLevel, message string, additionalInfo
map[string]interface{}) string`. -/
abbrev FormatFunc := LogLevel → String → Ctx → String

/-- Go: `type LogOptions struct` — the constructor options record.
Go calls the last field `Prefix`. -/
structure LogOptions where
  Level : LogLevel
  Format : LogOutput
  FormatCallback : Option FormatFunc
  Outputs : List OutputFunc
  Pfx : String

/-- Go: `type Logger struct` — bound configuration.
Go calls the last field `prefix`. -/
structure Logger where
  level : LogLevel
  format : LogOutput
  formatCallback : Option FormatFunc
  outputs : List OutputFunc
  pfx : String

/-- Go: `func defaultConsoleOutput(level LogLevel, message string)` —
`fmt.Fprint(os.Stderr, message+"\n")` for severities up to `Error`, else
the same on `os.Stdout`. -/
def defaultConsoleOutput : OutputFunc :=
  fun level message =>
    if level ≤ Error then [Effect.stderrWrite (message ++ "\n")]
    else [Effect.stdoutWrite (message ++ "\n")]

/-- Go: `func NewLogger(options LogOptions) *Logger` — copies the options
then applies the three defaults in order. -/
def NewLogger (options : LogOptions) : Logger :=
  let l0 : Logger :=
    ⟨options.Level, options.Format, options.FormatCallback,
      options.Outputs, options.Pfx⟩
  let l1 : Logger :=
    if l0.level < Emergency ∨ Debug < l0.level then { l0 with level := Info }
    else l0
  let l2 : Logger :=
    if l1.format = "" then { l1 with format := StringOutput } else l1
  let l3 : Logger :=
    if l2.outputs.length = 0 then { l2 with outputs := [defaultConsoleOutput] }
    else l2
  l3

/-- Go: the map-literal `logData` built in the JSON branch of
`formatMessage`: fixed fields `timestamp`, `level`, `message`, then
`prefix` when the prefix is non-empty, then every context entry written
over it. -/
def logData (pfx timestamp logLevel message : String) (additionalInfo : Ctx) :
    Ctx :=
  let base : Ctx :=
    [("timestamp", JVal.str timestamp), ("level", JVal.str logLevel),
      ("message", JVal.str message)]
  let base2 : Ctx :=
    if pfx ≠ "" then mapInsert base "prefix" (JVal.str pfx) else base
  additionalInfo.foldl (fun m kv => mapInsert m kv.1 kv.2) base2

/-- Go: `func (l *Logger) formatMessage(level LogLevel, message string,
additionalInfo map[string]interface{}) string`. The `timestamp` parameter
stands for `time.Now().UTC().Format(time.RFC3339Nano)`. -/
def Logger.formatMessage (l : Logger) (timestamp : String) (level : LogLevel)
    (message : String) (additionalInfo : Ctx) : String :=
  match l.formatCallback with
  | some cb => cb level message additionalInfo
  | none =>
    let logLevel := LogLevel.String level
    if l.format = JSONOutput then
      marshalObj (logData l.pfx timestamp logLevel message additionalInfo)
    else
      let baseMessage :=
        if l.pfx ≠ "" then
          "[" ++ l.pfx ++ "] [" ++ timestamp ++ "] [" ++ logLevel ++ "]"
        else
          "[" ++ timestamp ++ "] [" ++ logLevel ++ "]"
      let baseMessage2 :=
        if 0 < additionalInfo.length then
          baseMessage ++ " " ++ marshalObj additionalInfo
        else baseMessage
      baseMessage2 ++ " " ++ message

/-- Go: `func (l *Logger) shouldLog(level LogLevel) bool` —
`return level <= l.level`. -/
def Logger.shouldLog (l : Logger) (level : LogLevel) : Bool :=
  level ≤ l.level

/-- Go: `func (l *Logger) outputMessage(level LogLevel, message string)` —
invokes every configured output in list order. -/
def Logger.outputMessage (l : Logger) (level : LogLevel) (message : String) :
    List Effect :=
  List.flatten (l.outputs.map (fun output => output level message))

/-- Go: the variadic-argument handling in `Log`: the first context map when
one was passed, otherwise a fresh empty map. -/
def headInfo (additionalInfo : List Ctx) : Ctx :=
  match additionalInfo with
  | info :: _ => info
  | [] => []

/-- Go: `func (l *Logger) Log(level LogLevel, message string, additionalInfo
...map[string]interface{})`. -/
def Logger.Log (l : Logger) (timestamp : String) (level : LogLevel)
    (message : String) (additionalInfo : List Ctx) : List Effect :=
  if l.shouldLog level then
    let info := headInfo additionalInfo
    let formattedMessage := l.formatMessage timestamp level message info
    l.outputMessage level formattedMessage
  else []

/-- Go: `func ConsoleOutput() OutputFunc` — `fmt.Fprintln` to stderr for
severities up to `Error`, else to stdout. -/
def ConsoleOutput : OutputFunc :=
  fun level message =>
    if level ≤ Error then [Effect.stderrWrite (message ++ "\n")]
    else [Effect.stdoutWrite (message ++ "\n")]

/-- Go: `func FileOutput(filename string) (OutputFunc, error)` — one
`os.OpenFile(filename, O_CREATE|O_WRONLY|O_APPEND, 0666)` at construction
(recorded in the returned trace); on failure an error wrapping the cause,
on success a sink that `fmt.Fprintln`s every message to the file. -/
def FileOutput (fsOpen : String → Except String Unit) (filename : String) :
    List Effect × Except String OutputFunc :=
  ([Effect.openAppendCreate filename],
    match fsOpen filename with
    | .error e =>
        .error ("failed to open log file " ++ filename ++ ": " ++ e)
    | .ok _ =>
        .ok (fun _level message =>
          [Effect.fileAppend filename (message ++ "\n")]))

/-- Go: `func WriterOutput(writer io.Writer) OutputFunc` — the writer is
identified by an abstract id. -/
def WriterOutput (writer : Nat) : OutputFunc :=
  fun _level message => [Effect.writerWrite writer (message ++ "\n")]

/-- Go: `func SplitOutput(errorWriter, infoWriter io.Writer) OutputFunc`. -/
def SplitOutput (errorWriter infoWriter : Nat) : OutputFunc :=
  fun level message =>
    if level ≤ Error then [Effect.writerWrite errorWriter (message ++ "\n")]
    else [Effect.writerWrite infoWriter (message ++ "\n")]

/-- Go: `func MultiOutput(outputs ...OutputFunc) OutputFunc` — invokes all
wrapped outputs in order. -/
def MultiOutput (outputs : List OutputFunc) : OutputFunc :=
  fun level message =>
    List.flatten (outputs.map (fun output => output level message))

/-- Go: `func LevelFilterOutput(minLevel LogLevel, output OutputFunc)
OutputFunc` — forwards exactly when `level <= minLevel`. -/
def LevelFilterOutput (minLevel : LogLevel) (output : OutputFunc) :
    OutputFunc :=
  fun level message =>
    if level ≤ minLevel then output level message else []

/-- Instrumentation sink (the analogue of the closures capturing a buffer
in the tests of the repository): records each invocation it receives, tagged
with an id so distinct sinks are distinguishable. -/
def probeSink (i : Nat) : OutputFunc :=
  fun level message => [Effect.call i level message]

/-! ## Helper lemmas -/

/-- Left-biased choice on optional values, describing lookup in a
concatenation of association lists. -/
def oalt (a b : Option JVal) : Option JVal :=
  match a with
  | some v => some v
  | none => b

theorem probe_trace (ids : List Nat) (level : LogLevel) (msg : String) :
    (List.map (fun i => probeSink i level msg) ids).flatten =
      ids.map (fun i => Effect.call i level msg) := by
  induction ids with
  | nil => rfl
  | cons i rest ih =>
      simp only [List.map_cons, List.flatten_cons]
      rw [ih]
      rfl

theorem mapLookup_insert_self (m : Ctx) (k : String) (v : JVal) :
    mapLookup k (mapInsert m k v) = some v := by
  induction m with
  | nil => simp [mapInsert, mapLookup]
  | cons p rest ih =>
      by_cases h : p.1 = k <;> simp [mapInsert, mapLookup, h, ih]

theorem mapLookup_insert_ne (m : Ctx) (k k2 : String) (v : JVal)
    (h : k2 ≠ k) :
    mapLookup k (mapInsert m k2 v) = mapLookup k m := by
  induction m with
  | nil => simp [mapInsert, mapLookup, h]
  | cons p rest ih =>
      by_cases hp : p.1 = k2
      · simp [mapInsert, mapLookup, hp, h]
      · by_cases hk : p.1 = k <;>
          simp [mapInsert, mapLookup, hp, hk, ih, Ne.symm h]

theorem mapLookup_insert_cases (m : Ctx) (k k2 : String) (v : JVal) :
    mapLookup k (mapInsert m k2 v) =
      oalt (mapLookup k [(k2, v)]) (mapLookup k m) := by
  by_cases h : k2 = k
  · subst h
    simp [mapLookup, oalt, mapLookup_insert_self]
  · simp [mapLookup, oalt, h, mapLookup_insert_ne m k k2 v h]

theorem mapLookup_append (k : String) (a b : Ctx) :
    mapLookup k (a ++ b) = oalt (mapLookup k a) (mapLookup k b) := by
  induction a with
  | nil => simp [mapLookup, oalt]
  | cons p rest ih =>
      by_cases h : p.1 = k <;> simp [mapLookup, oalt, h, ih]

theorem oalt_assoc (a b c : Option JVal) :
    oalt (oalt a b) c = oalt a (oalt b c) := by
  cases a <;> rfl

theorem mapLookup_foldl_insert (ctx : Ctx) (m : Ctx) (k : String) :
    mapLookup k (ctx.foldl (fun m2 kv => mapInsert m2 kv.1 kv.2) m) =
      oalt (mapLookup k ctx.reverse) (mapLookup k m) := by
  induction ctx generalizing m with
  | nil => simp [mapLookup, oalt]
  | cons kv rest ih =>
      rw [List.foldl_cons, ih, List.reverse_cons, mapLookup_append, oalt_assoc,
        mapLookup_insert_cases]

theorem mapLookup_eq_none (l : Ctx) (k : String) (h : ∀ kv ∈ l, kv.1 ≠ k) :
    mapLookup k l = none := by
  induction l with
  | nil => rfl
  | cons p rest ih =>
      have hp : p.1 ≠ k := h p (by simp)
      simp only [mapLookup, hp, if_false]
      exact ih (fun kv hkv => h kv (by simp [hkv]))

/-! ## Claim theorems -/

/-- C1: for every level and every logger threshold `T`, `Log` invokes the
configured sinks (the observing sink records a call, so the trace is
non-empty) if and only if the ordinal of the level is at most `T`, regardless of
format, formatter callback, prefix and context arguments. -/
theorem c1_log_emits_iff (T level : LogLevel) (fmt p ts msg : String)
    (cb : Option FormatFunc) (ai : List Ctx) :
    (Logger.shouldLog ⟨T, fmt, cb, [probeSink 0], p⟩ level = true ↔
      level ≤ T) ∧
    (Logger.Log ⟨T, fmt, cb, [probeSink 0], p⟩ ts level msg ai ≠ [] ↔
      level ≤ T) := by
  constructor
  · simp [Logger.shouldLog]
  · by_cases h : level ≤ T <;>
      simp [Logger.Log, Logger.shouldLog, Logger.outputMessage, probeSink, h]

/-- C2: when the level passes the threshold, `Log` sends one call to every
configured sink in list order, each carrying the original level and the
same formatted string (the one produced by `formatMessage` on the first
context argument, or the empty map); when it does not pass, `Log` performs
no effect at all. -/
theorem c2_log_dispatch (T level : LogLevel) (fmt p ts msg : String)
    (cb : Option FormatFunc) (ids : List Nat) (ai : List Ctx) :
    Logger.Log ⟨T, fmt, cb, ids.map probeSink, p⟩ ts level msg ai =
      if level ≤ T then
        ids.map (fun i => Effect.call i level
          (Logger.formatMessage ⟨T, fmt, cb, ids.map probeSink, p⟩
            ts level msg (headInfo ai)))
      else [] := by
  by_cases h : level ≤ T <;>
    simp [Logger.Log, Logger.shouldLog, Logger.outputMessage, h, probe_trace, Function.comp_def]

/-- C6: a logger constructed with a custom format callback never uses the
built-in text/JSON path (the format string is arbitrary here and does not
influence the result): `formatMessage` returns exactly the result of the
callback on the raw context map, and the sinks receive exactly that string;
`headInfo` shows the callback receives the first context map of the caller, or
the empty map when none was passed. -/
theorem c6_custom_formatter (T level : LogLevel) (fmt p ts msg : String)
    (f : FormatFunc) (ids : List Nat) (ai : List Ctx) :
    (Logger.formatMessage ⟨T, fmt, some f, ids.map probeSink, p⟩
        ts level msg (headInfo ai) = f level msg (headInfo ai)) ∧
    (Logger.Log ⟨T, fmt, some f, ids.map probeSink, p⟩ ts level msg ai =
      if level ≤ T then
        ids.map (fun i => Effect.call i level (f level msg (headInfo ai)))
      else []) ∧
    (Logger.Log ⟨T, fmt, some f, ids.map probeSink, p⟩ ts level msg [] =
      if level ≤ T then
        ids.map (fun i => Effect.call i level (f level msg []))
      else []) := by
  refine ⟨rfl, ?_, ?_⟩ <;>
    by_cases h : level ≤ T <;>
      simp [Logger.Log, Logger.shouldLog, Logger.outputMessage,
        Logger.formatMessage, headInfo, h, probe_trace, Function.comp_def]

/-- C7: a level-filter sink with threshold `T` forwards a call to the
wrapped sink exactly when the level of the call is at most `T`: the observing
wrapped sink records its invocation (with the same level and message) iff
`level ≤ T`, and records nothing when `level > T`. -/
theorem c7_level_filter (T level : LogLevel) (msg : String)
    (o : OutputFunc) (i : Nat) :
    (LevelFilterOutput T o level msg =
      if level ≤ T then o level msg else []) ∧
    ((Effect.call i level msg ∈
        LevelFilterOutput T (probeSink i) level msg) ↔ level ≤ T) ∧
    (¬ level ≤ T → LevelFilterOutput T (probeSink i) level msg = []) := by
  refine ⟨rfl, ?_, ?_⟩
  · by_cases h : level ≤ T <;> simp [LevelFilterOutput, probeSink, h]
  · intro h
    simp [LevelFilterOutput, h]

/-- C7 (witness): a call at level 7 against filter threshold 3 leaves the
wrapped observing sink uninvoked. -/
theorem c7_level_filter_witness :
    LevelFilterOutput 3 (probeSink 0) 7 "m" = [] :=
  (c7_level_filter 3 7 "m" (probeSink 0) 0).2.2 (by decide)

/-- C8: a multiplex sink invokes each wrapped sink exactly once per call,
in registration order, passing the same level and message: over observing
sinks tagged `ids`, the trace is exactly one call per id, in order. -/
theorem c8_multi_output (level : LogLevel) (msg : String) (ids : List Nat) :
    MultiOutput (ids.map probeSink) level msg =
      ids.map (fun i => Effect.call i level msg) := by
  simpa [MultiOutput] using probe_trace ids level msg

/-- C3 (counterexample): an unset minimum level — the Go zero value, which is
`Emergency` — is NOT replaced by `Info` at construction: `NewLogger` on the
all-zero options record keeps threshold `Emergency`. -/
theorem c3_unset_level_not_info :
    (NewLogger ⟨0, "", none, [], ""⟩).level ≠ Info := by decide

/-- C3 (amended): at construction, an out-of-range minimum level (below
`Emergency` or above `Debug`) is replaced by `Info`, while any in-range
level — including the zero value `Emergency` of an unset field — is kept;
an unset format is replaced by text (`"string"`) mode and a set one is
kept; an empty sink list is replaced by the single default console sink,
which routes levels `Emergency` through `Error` to standard error and all
other levels to standard output, appending a trailing newline on every
write. -/
theorem c3_new_logger_defaults (opts : LogOptions) :
    ((opts.Level < Emergency ∨ Debug < opts.Level) →
      (NewLogger opts).level = Info) ∧
    (Emergency ≤ opts.Level → opts.Level ≤ Debug →
      (NewLogger opts).level = opts.Level) ∧
    (opts.Format = "" → (NewLogger opts).format = StringOutput) ∧
    (opts.Format ≠ "" → (NewLogger opts).format = opts.Format) ∧
    (opts.Outputs = [] → (NewLogger opts).outputs = [defaultConsoleOutput]) ∧
    (∀ level msg, defaultConsoleOutput level msg =
      if level ≤ Error then [Effect.stderrWrite (msg ++ "\n")]
      else [Effect.stdoutWrite (msg ++ "\n")]) := by
  refine ⟨?_, ?_, ?_, ?_, ?_, fun level msg => rfl⟩
  · intro h
    simp only [NewLogger, h, if_true]
    split <;> split <;> rfl
  · intro h1 h2
    have h : ¬ (opts.Level < Emergency ∨ Debug < opts.Level) := fun hc =>
      hc.elim (fun hlt => absurd h1 (not_le.mpr hlt))
        (fun hgt => absurd h2 (not_le.mpr hgt))
    simp only [NewLogger, h, if_false]
    split <;> split <;> rfl
  · intro h
    simp only [NewLogger]
    split_ifs <;> simp_all
  · intro h
    simp only [NewLogger]
    split_ifs <;> simp_all
  · intro h
    simp only [NewLogger]
    split_ifs <;> simp_all

/-- C3 (witness): concrete instances — level 9 is out of range and becomes
`Info`; the empty format becomes `"string"`; the empty sink list becomes
the default console sink. -/
theorem c3_new_logger_defaults_witness :
    (NewLogger ⟨9, "", none, [], ""⟩).level = Info ∧
    (NewLogger ⟨9, "", none, [], ""⟩).format = StringOutput ∧
    (NewLogger ⟨9, "", none, [], ""⟩).outputs = [defaultConsoleOutput] :=
  ⟨(c3_new_logger_defaults ⟨9, "", none, [], ""⟩).1 (Or.inr (by decide)),
    (c3_new_logger_defaults ⟨9, "", none, [], ""⟩).2.2.1 rfl,
    (c3_new_logger_defaults ⟨9, "", none, [], ""⟩).2.2.2.2.1 rfl⟩

/-- C4: in text (string) mode with no custom callback, the formatted line
is exactly `[prefix] [timestamp] [LEVEL] [context-json] message`: the
prefix segment appears only when the prefix is non-empty, the context
segment only when the context map is non-empty, the level name sits in
brackets and is its own uppercase, and the message appears verbatim at the
end. -/
theorem c4_text_format (T level : LogLevel) (p ts msg : String)
    (outs : List OutputFunc) (ctx : Ctx) :
    (p ≠ "" → ctx ≠ [] →
      Logger.formatMessage ⟨T, StringOutput, none, outs, p⟩ ts level msg ctx =
        "[" ++ p ++ "] [" ++ ts ++ "] [" ++ LogLevel.String level ++ "]" ++
          " " ++ marshalObj ctx ++ " " ++ msg) ∧
    (p ≠ "" → ctx = [] →
      Logger.formatMessage ⟨T, StringOutput, none, outs, p⟩ ts level msg ctx =
        "[" ++ p ++ "] [" ++ ts ++ "] [" ++ LogLevel.String level ++ "]" ++
          " " ++ msg) ∧
    (p = "" → ctx ≠ [] →
      Logger.formatMessage ⟨T, StringOutput, none, outs, p⟩ ts level msg ctx =
        "[" ++ ts ++ "] [" ++ LogLevel.String level ++ "]" ++
          " " ++ marshalObj ctx ++ " " ++ msg) ∧
    (p = "" → ctx = [] →
      Logger.formatMessage ⟨T, StringOutput, none, outs, p⟩ ts level msg ctx =
        "[" ++ ts ++ "] [" ++ LogLevel.String level ++ "]" ++ " " ++ msg) ∧
    ((LogLevel.String level).data.all (fun c => c.isUpper)) = true := by
  refine ⟨?_, ?_, ?_, ?_, ?_⟩
  · intro hp hc
    simp [Logger.formatMessage, StringOutput, JSONOutput, hp,
      List.length_pos.mpr hc]
  · intro hp hc
    simp [Logger.formatMessage, StringOutput, JSONOutput, hp, hc]
  · intro hp hc
    simp [Logger.formatMessage, StringOutput, JSONOutput, hp,
      List.length_pos.mpr hc]
  · intro hp hc
    simp [Logger.formatMessage, StringOutput, JSONOutput, hp, hc]
  · unfold LogLevel.String
    split_ifs <;> decide

/-- C4 (witness): the scenario given in the spec — prefix `svc`, level `Error`,
context `code: 500`, message `y`. -/
theorem c4_text_format_witness :
    Logger.formatMessage ⟨7, StringOutput, none, [], "svc"⟩ "TS" 3 "y"
        [("code", JVal.num 500)] =
      "[" ++ "svc" ++ "] [" ++ "TS" ++ "] [" ++ LogLevel.String 3 ++ "]" ++
        " " ++ marshalObj [("code", JVal.num 500)] ++ " " ++ "y" :=
  (c4_text_format 7 3 "svc" "TS" "y" [] [("code", JVal.num 500)]).1
    (by decide) (by decide)

/-- C5: in JSON mode with no custom callback, the output is the marshalled
single JSON object built from fields `timestamp`, `level` (the level
name), `message` (the input string), `prefix` present exactly when the
prefix is non-empty, and every context key merged at the top level; a
context key colliding with a fixed field overwrites it (the last write,
i.e. the context, wins). -/
theorem c5_json_format (T level : LogLevel) (p ts msg : String)
    (outs : List OutputFunc) (ctx : Ctx) :
    (Logger.formatMessage ⟨T, JSONOutput, none, outs, p⟩ ts level msg ctx =
      marshalObj (logData p ts (LogLevel.String level) msg ctx)) ∧
    ((∀ kv ∈ ctx, kv.1 ≠ "level") →
      mapLookup "level" (logData p ts (LogLevel.String level) msg ctx) =
        some (JVal.str (LogLevel.String level))) ∧
    ((∀ kv ∈ ctx, kv.1 ≠ "message") →
      mapLookup "message" (logData p ts (LogLevel.String level) msg ctx) =
        some (JVal.str msg)) ∧
    ((∀ kv ∈ ctx, kv.1 ≠ "timestamp") →
      mapLookup "timestamp" (logData p ts (LogLevel.String level) msg ctx) =
        some (JVal.str ts)) ∧
    (p ≠ "" → (∀ kv ∈ ctx, kv.1 ≠ "prefix") →
      mapLookup "prefix" (logData p ts (LogLevel.String level) msg ctx) =
        some (JVal.str p)) ∧
    (p = "" → (∀ kv ∈ ctx, kv.1 ≠ "prefix") →
      mapLookup "prefix" (logData p ts (LogLevel.String level) msg ctx) =
        none) ∧
    (∀ k v, mapLookup k ctx.reverse = some v →
      mapLookup k (logData p ts (LogLevel.String level) msg ctx) = some v) := by
  refine ⟨by simp [Logger.formatMessage, JSONOutput], ?_, ?_, ?_, ?_, ?_, ?_⟩
  · intro h
    simp only [logData]
    rw [mapLookup_foldl_insert,
      mapLookup_eq_none ctx.reverse _
        (fun kv hkv => h kv (List.mem_reverse.mp hkv))]
    by_cases hp : p = "" <;> simp [mapInsert, mapLookup, oalt, hp]
  · intro h
    simp only [logData]
    rw [mapLookup_foldl_insert,
      mapLookup_eq_none ctx.reverse _
        (fun kv hkv => h kv (List.mem_reverse.mp hkv))]
    by_cases hp : p = "" <;> simp [mapInsert, mapLookup, oalt, hp]
  · intro h
    simp only [logData]
    rw [mapLookup_foldl_insert,
      mapLookup_eq_none ctx.reverse _
        (fun kv hkv => h kv (List.mem_reverse.mp hkv))]
    by_cases hp : p = "" <;> simp [mapInsert, mapLookup, oalt, hp]
  · intro hp h
    simp only [logData]
    rw [mapLookup_foldl_insert,
      mapLookup_eq_none ctx.reverse _
        (fun kv hkv => h kv (List.mem_reverse.mp hkv))]
    simp [mapInsert, mapLookup, oalt, hp]
  · intro hp h
    simp only [logData]
    rw [mapLookup_foldl_insert,
      mapLookup_eq_none ctx.reverse _
        (fun kv hkv => h kv (List.mem_reverse.mp hkv))]
    simp [mapInsert, mapLookup, oalt, hp]
  · intro k v hv
    simp only [logData]
    rw [mapLookup_foldl_insert, hv]
    rfl

/-- C5 (witness): the scenario given in the spec — JSON mode, empty prefix, message
`hello` with context `k: v` — has `message` field `hello`. -/
theorem c5_json_format_witness :
    mapLookup "message"
        (logData "" "TS" (LogLevel.String 6) "hello" [("k", JVal.str "v")]) =
      some (JVal.str "hello") :=
  (c5_json_format 6 6 "" "TS" "hello" [] [("k", JVal.str "v")]).2.2.1
    (by decide)

/-- C9: file-sink construction performs exactly one open-append-create of
the named file; it returns the I/O error (wrapped with the file name) and
no sink exactly when that open fails, and otherwise returns a bound sink
whose every call appends exactly one line to that file. -/
theorem c9_file_output (fsOpen : String → Except String Unit)
    (filename : String) :
    ((FileOutput fsOpen filename).1 =
      [Effect.openAppendCreate filename]) ∧
    (∀ e, fsOpen filename = .error e →
      (FileOutput fsOpen filename).2 =
        .error ("failed to open log file " ++ filename ++ ": " ++ e)) ∧
    (fsOpen filename = .ok () →
      (FileOutput fsOpen filename).2 =
        .ok (fun _level message =>
          [Effect.fileAppend filename (message ++ "\n")])) := by
  refine ⟨rfl, ?_, ?_⟩
  · intro e he
    simp [FileOutput, he]
  · intro hok
    simp [FileOutput, hok]

/-- C9 (witness): a concrete failing open surfaces the wrapped error, and
a concrete succeeding open yields the appending sink after the single
recorded open. -/
theorem c9_file_output_witness :
    ((FileOutput (fun _ => Except.ok ()) "app.log").1 =
      [Effect.openAppendCreate "app.log"]) ∧
    ((FileOutput (fun _ => Except.error "EACCES") "app.log").2 =
      Except.error ("failed to open log file " ++ "app.log" ++ ": " ++
        "EACCES")) ∧
    ((FileOutput (fun _ => Except.ok ()) "app.log").2 =
      Except.ok (fun _level message =>
        [Effect.fileAppend "app.log" (message ++ "\n")])) :=
  ⟨(c9_file_output (fun _ => Except.ok ()) "app.log").1,
    (c9_file_output (fun _ => Except.error "EACCES") "app.log").2.1
      "EACCES" rfl,
    (c9_file_output (fun _ => Except.ok ()) "app.log").2.2 rfl⟩

/-- C10: call-time levels are never validated: any level with ordinal
below `Emergency` passes the `level <= threshold` filter of any logger
whose threshold is a valid level, so the message is emitted, and the
level name in the formatted output is `UNKNOWN`. -/
theorem c10_unvalidated_negative_level (T level : LogLevel)
    (ts msg : String) (h1 : level < Emergency) (h2 : Emergency ≤ T)
    (h3 : T ≤ Debug) :
    (LogLevel.String level = "UNKNOWN") ∧
    (Logger.Log ⟨T, StringOutput, none, [probeSink 0], ""⟩ ts level msg [] =
      [Effect.call 0 level
        (Logger.formatMessage ⟨T, StringOutput, none, [probeSink 0], ""⟩
          ts level msg [])]) := by
  have hle : level ≤ T := le_trans (le_of_lt h1) h2
  constructor
  · have hne : ∀ c : LogLevel, Emergency ≤ c → level ≠ c := fun c hc e =>
      absurd (e ▸ h1) (not_lt.mpr hc)
    simp [LogLevel.String, hne Emergency (le_refl _), hne Alert (by decide),
      hne Critical (by decide), hne Error (by decide),
      hne Warning (by decide), hne Notice (by decide),
      hne Info (by decide), hne Debug (by decide)]
  · simp [Logger.Log, Logger.shouldLog, Logger.outputMessage, probeSink,
      headInfo, hle]

/-- C10 (witness): level `-1` against threshold `Info` is emitted and
renders as `UNKNOWN`. -/
theorem c10_unvalidated_negative_level_witness :
    (LogLevel.String (-1) = "UNKNOWN") ∧
    (Logger.Log ⟨6, StringOutput, none, [probeSink 0], ""⟩ "TS" (-1) "m"
        [] =
      [Effect.call 0 (-1)
        (Logger.formatMessage ⟨6, StringOutput, none, [probeSink 0], ""⟩
          "TS" (-1) "m" [])]) :=
  c10_unvalidated_negative_level 6 (-1) "TS" "m" (by decide) (by decide)
    (by decide)

end GoLogz
